import Mathlib

set_option maxHeartbeats 1000000
set_option maxRecDepth 8000

/- Shallow embedding of src/generator/generate_fake_data.py, the Soundcheck
Analytics fake-data generator.  Machine reals are modelled by ℚ, calendar
dates by ℤ (day ordinals, with day 0 a Monday so Python date.weekday()
becomes the residue mod 7), and every pseudo-random draw consumed by the
script is an explicit oracle argument: a uniform [0,1) draw of
random.random() becomes a ℚ argument, random.randint(a, b) becomes
a + d % (b - a + 1) for a ℕ draw d, and random.gauss draws become
unconstrained ℚ arguments. -/

/-- Python round() on a rational: round half to even. -/
def pyround (q : ℚ) : ℤ :=
  let f := ⌊q⌋
  let r := q - f
  if r < 1/2 then f
  else if 1/2 < r then f + 1
  else if f % 2 = 0 then f else f + 1

/-- Python int() applied to a rational: truncation toward zero. -/
def pyint (q : ℚ) : ℤ := if 0 ≤ q then ⌊q⌋ else -⌊-q⌋

/-- Python round(x, 2): round to two decimal places. -/
def round2 (q : ℚ) : ℚ := (pyround (q * 100) : ℚ) / 100

/-- Python date.weekday() for a day ordinal: day 0 is a Monday, so
Thursday = 3, Friday = 4, Saturday = 5. -/
def weekday (d : ℤ) : ℤ := d % 7

/-- Artist popularity_tier values. -/
inductive Tier where
  | megastar | popular | rising | established | emerging | localActDeriv
  deriving DecidableEq, Repr

/-- Venue venue_type values. -/
inductive VenueType where
  | club | bar | theater | arena | stadium | amphitheater | festivalGrounds
  deriving DecidableEq, Repr

/-- Event event_status values. -/
inductive EventStatus where
  | completed | cancelled | scheduled
  deriving DecidableEq, Repr

/-- Weather conditions drawn by _get_weather (union of all season pools). -/
inductive Weather where
  | clear | cold | snow | rain | partlyCloudy | mild | hot | thunderstorm | cool
  deriving DecidableEq, Repr

/-- User user_segment values. -/
inductive Segment where
  | powerUser | regular | casual
  deriving DecidableEq, Repr

/-- The venue attributes the event/rating core reads. -/
structure Venue where
  venueId : ℕ
  vtype : VenueType
  capacity : ℕ
  ticketFee : ℚ
  deriving DecidableEq, Repr

/-- The artist attributes the event core reads. -/
structure Artist where
  artistId : ℕ
  tier : Tier
  deriving DecidableEq, Repr

/-- The user attributes the rating generator reads. -/
structure User where
  userId : ℕ
  segment : Segment
  verified : Bool
  deriving DecidableEq, Repr

/-- A tour record as read by generate_events. -/
structure Tour where
  tourId : ℕ
  artistId : ℕ
  startDate : ℤ
  endDate : ℤ
  numShows : ℕ
  deriving DecidableEq, Repr

/-- The random draws consumed by _create_event for one event (gauss-free;
each field mirrors one random.* call in source order). -/
structure CreateEventDraws where
  priceU : ℚ
  announceD : ℕ
  saleGapD : ℕ
  vipU : ℚ
  cancelU : ℚ
  fillU : ℚ
  weatherW : Weather
  specialU : ℚ
  deriving DecidableEq, Repr

/-- An event record (the fields the verified claims touch; cosmetic fields
such as event_name, show times and opening acts are omitted). -/
structure Event where
  eventId : ℕ
  artistId : ℕ
  venueId : ℕ
  tourId : Option ℕ
  eventDate : ℤ
  status : EventStatus
  estimatedAttendance : Option ℤ
  basePrice : ℚ
  vipPrice : Option ℚ
  announcedDate : ℤ
  onSaleDate : ℤ
  weather : Option Weather
  specialEvent : Bool
  deriving DecidableEq, Repr

/-- Tier-indexed base_prices table of _create_event. -/
def tierPriceRange : Tier → ℚ × ℚ
  | Tier.megastar => (75, 250)
  | Tier.popular => (50, 150)
  | Tier.rising => (35, 75)
  | Tier.established => (25, 60)
  | Tier.emerging => (15, 40)
  | Tier.localActDeriv => (10, 25)

/-- Venue-type price multiplier applied by _create_event
(stadium 1.5, arena 1.3, club 0.8, otherwise 1). -/
def venuePriceFactor : VenueType → ℚ
  | VenueType.stadium => 3/2
  | VenueType.arena => 13/10
  | VenueType.club => 4/5
  | _ => 1

/-- Tier-indexed capacity_fill uniform range of _create_event. -/
def tierFillRange : Tier → ℚ × ℚ
  | Tier.megastar => (17/20, 1)
  | Tier.popular => (7/10, 19/20)
  | _ => (2/5, 17/20)

/-- Unrounded base_price of _create_event: uniform draw u over the tier
price range, venue-type multiplier, then a 1.2 weekend premium on Friday
and Saturday. -/
def eventBasePrice (tier : Tier) (vt : VenueType) (eventDate : ℤ) (u : ℚ) : ℚ :=
  let pr := tierPriceRange tier
  let base0 := pr.1 + u * (pr.2 - pr.1)
  let base1 := base0 * venuePriceFactor vt
  if weekday eventDate = 4 ∨ weekday eventDate = 5 then base1 * (6/5) else base1

/-- Capacity_fill of _create_event: uniform draw u over the tier fill
range, boosted by 1.1 (capped at 1) on Thursdays. -/
def eventFill (tier : Tier) (eventDate : ℤ) (u : ℚ) : ℚ :=
  let fr := tierFillRange tier
  let fill0 := fr.1 + u * (fr.2 - fr.1)
  if weekday eventDate = 3 then min 1 (fill0 * (11/10)) else fill0

/-- Embeds _create_event: derives price, announce/on-sale dates, status,
attendance and weather for one event.  today is the current date
(datetime.now().date()); random draws come from d. -/
def createEvent (today : ℤ) (eventId artistId : ℕ) (tier : Tier) (venue : Venue)
    (eventDate : ℤ) (tourId : Option ℕ) (d : CreateEventDraws) : Event :=
  let base2 := eventBasePrice tier venue.vtype eventDate d.priceU
  let announceDays : ℤ :=
    if tier = Tier.megastar ∨ tier = Tier.popular
    then 90 + (d.announceD % 91 : ℕ) else 30 + (d.announceD % 61 : ℕ)
  let announcedDate := eventDate - announceDays
  let onSaleDate := announcedDate + (1 + (d.saleGapD % 7 : ℕ))
  let status :=
    if eventDate < today then
      (if d.cancelU < 1/20 then EventStatus.cancelled else EventStatus.completed)
    else EventStatus.scheduled
  let attendance :=
    if status = EventStatus.completed
    then some (pyint ((venue.capacity : ℚ) * eventFill tier eventDate d.fillU)) else none
  { eventId := eventId
    artistId := artistId
    venueId := venue.venueId
    tourId := tourId
    eventDate := eventDate
    status := status
    estimatedAttendance := attendance
    basePrice := round2 base2
    vipPrice := if d.vipU < 7/10 then some (round2 (base2 * (5/2))) else none
    announcedDate := announcedDate
    onSaleDate := onSaleDate
    weather :=
      if venue.vtype = VenueType.amphitheater ∨ venue.vtype = VenueType.festivalGrounds
      then some d.weatherW else none
    specialEvent := decide (d.specialU < 1/20) }

/-- Embeds _generate_event_date: a random day in the two-years-back to
one-year-forward window, then shifted forward to a weighted target weekday. -/
def generateEventDate (startD endD : ℤ) (dayD dowD : ℕ) : ℤ :=
  let daysRange := (endD - startD).toNat
  let potential := startD + (dayD % (daysRange + 1) : ℕ)
  let target : ℤ := (dowD % 7 : ℕ)
  potential + (target - weekday potential) % 7

/-- Default venue (used for out-of-range list indexing in the model; the
Python script would raise instead). -/
def defaultVenue : Venue := { venueId := 0, vtype := VenueType.club, capacity := 0, ticketFee := 0 }

/-- Default artist for out-of-range list indexing. -/
def defaultArtist : Artist := { artistId := 0, tier := Tier.localActDeriv }

/-- Default event for out-of-range list indexing. -/
def defaultEvent : Event :=
  { eventId := 0, artistId := 0, venueId := 0, tourId := none, eventDate := 0,
    status := EventStatus.scheduled, estimatedAttendance := none, basePrice := 0,
    vipPrice := none, announcedDate := 0, onSaleDate := 0, weather := none,
    specialEvent := false }

/-- State threaded through generate_events: the events list, the per-artist
calendar of booked dates (artist_calendar) and the event_id_counter. -/
structure GenState where
  events : List Event
  calendar : ℕ → List ℤ
  counter : ℕ

/-- Initial generate_events state: no events, empty calendars, counter 1. -/
def startState : GenState := { events := [], calendar := fun _ => [], counter := 1 }

/-- Appends one event, books its date in the artist calendar and bumps the
event counter (the three mutations generate_events performs per event). -/
def bookEvent (st : GenState) (a : ℕ) (d : ℤ) (ev : Event) : GenState :=
  { events := st.events ++ [ev]
    calendar := fun x => if x = a then st.calendar x ++ [d] else st.calendar x
    counter := st.counter + 1 }

/-- Random draws for one tour of generate_events: the 2-4 day gap draws,
venue choice draws and per-event _create_event draws, indexed by remaining
fuel (one index per loop iteration). -/
structure TourOracle where
  gapD : ℕ → ℕ
  venueD : ℕ → ℕ
  evD : ℕ → CreateEventDraws

/-- Embeds the per-tour while loop of generate_events.  fuel bounds the
number of iterations (the Python loop is unbounded); tc is tour_event_count
and cur is current_date.  Note the faithful quirk: when tc = 0 and cur is
already booked, no state changes, so the loop can spin forever. -/
def tourLoop (today : ℤ) (venues : List Venue) (tierOf : ℕ → Tier) (n : ℕ)
    (tour : Tour) (o : TourOracle) :
    ℕ → ℕ → ℤ → GenState → Option GenState
  | 0, tc, cur, st =>
    if tc < tour.numShows ∧ cur ≤ tour.endDate ∧ st.counter ≤ n then none else some st
  | fuel + 1, tc, cur, st =>
    if tc < tour.numShows ∧ cur ≤ tour.endDate ∧ st.counter ≤ n then
      let cur' := if 0 < tc then cur + (2 + (o.gapD fuel % 3 : ℕ)) else cur
      if cur' ∈ st.calendar tour.artistId then
        tourLoop today venues tierOf n tour o fuel tc cur' st
      else
        let venue := venues.getD (o.venueD fuel % venues.length) defaultVenue
        let ev := createEvent today st.counter tour.artistId (tierOf tour.artistId)
          venue cur' (some tour.tourId) (o.evD fuel)
        tourLoop today venues tierOf n tour o fuel (tc + 1) cur' (bookEvent st tour.artistId cur' ev)
    else some st

/-- Looks up an artist popularity tier by artist_id
(next(a for a in self.artists if ...)). -/
def tierOfArtists (artists : List Artist) (aid : ℕ) : Tier :=
  ((artists.find? fun a => decide (a.artistId = aid)).getD defaultArtist).tier

/-- Runs the tour phase of generate_events over the tour list, giving each
tour its own oracle. -/
def runTours (today : ℤ) (venues : List Venue) (tierOf : ℕ → Tier) (n : ℕ)
    (tourO : ℕ → TourOracle) :
    List Tour → ℕ → ℕ → GenState → Option GenState
  | [], _, _, st => some st
  | t :: ts, idx, fuel, st =>
    match tourLoop today venues tierOf n t (tourO idx) fuel 0 t.startDate st with
    | none => none
    | some st' => runTours today venues tierOf n tourO ts (idx + 1) fuel st'

/-- Random draws for the random-fill phase of generate_events, indexed by
remaining fuel. -/
structure FillOracle where
  artistD : ℕ → ℕ
  venueD : ℕ → ℕ
  dayD : ℕ → ℕ
  dowD : ℕ → ℕ
  evD : ℕ → CreateEventDraws

/-- Embeds the non-tour while loop of generate_events: pick a random artist,
venue and date; book the event only when the artist is free that date;
otherwise just sample again. -/
def fillLoop (today : ℤ) (artists : List Artist) (venues : List Venue) (n : ℕ)
    (o : FillOracle) : ℕ → GenState → Option GenState
  | 0, st => if st.counter ≤ n then none else some st
  | fuel + 1, st =>
    if st.counter ≤ n then
      let artist := artists.getD (o.artistD fuel % artists.length) defaultArtist
      let venue := venues.getD (o.venueD fuel % venues.length) defaultVenue
      let date := generateEventDate (today - 730) (today + 365) (o.dayD fuel) (o.dowD fuel)
      if date ∈ st.calendar artist.artistId then
        fillLoop today artists venues n o fuel st
      else
        fillLoop today artists venues n o fuel
          (bookEvent st artist.artistId date
            (createEvent today st.counter artist.artistId artist.tier venue date none (o.evD fuel)))
    else some st

/-- All random draws generate_events consumes. -/
structure GenOracle where
  tourO : ℕ → TourOracle
  fill : FillOracle

/-- Embeds generate_events(n): tour schedule walk first, then random fill,
starting from the empty state.  Returns none when fuel runs out before a
loop exits. -/
def generateEvents (today : ℤ) (artists : List Artist) (venues : List Venue)
    (tours : List Tour) (n : ℕ) (o : GenOracle) (fuel : ℕ) : Option GenState :=
  match runTours today venues (tierOfArtists artists) n o.tourO tours 0 fuel startState with
  | none => none
  | some st => fillLoop today artists venues n o.fill fuel st

/-- An event_ratings record (aspects omitted; review title/text are modelled
as pool indices since only their presence matters to the claims). -/
structure Rating where
  ratingId : ℕ
  eventId : ℕ
  userId : ℕ
  score : ℚ
  ratingDate : ℤ
  daysAfter : ℤ
  reviewTitle : Option ℕ
  reviewText : Option ℕ
  verifiedAttendance : Bool
  helpfulCount : ℕ
  reported : Bool
  deriving DecidableEq, Repr

/-- Default rating for out-of-range list indexing. -/
def defaultRating : Rating :=
  { ratingId := 0, eventId := 0, userId := 0, score := 1, ratingDate := 0,
    daysAfter := 0, reviewTitle := none, reviewText := none,
    verifiedAttendance := false, helpfulCount := 0, reported := false }

/-- Default user for out-of-range list indexing. -/
def defaultUser : User := { userId := 0, segment := Segment.casual, verified := false }

/-- Venue-type adjustment table of _calculate_base_rating_score. -/
def venueRatingAdj : VenueType → ℚ
  | VenueType.club => 1/5
  | VenueType.theater => 3/10
  | VenueType.bar => 1/10
  | VenueType.arena => -(1/10)
  | VenueType.stadium => -(3/10)
  | VenueType.amphitheater => 1/10
  | VenueType.festivalGrounds => -(1/10)

/-- Weather adjustment table of _calculate_base_rating_score (dict.get
default 0 for conditions outside the table, e.g. cool). -/
def weatherRatingAdj : Weather → ℚ
  | Weather.clear => 1/5
  | Weather.mild => 1/10
  | Weather.partlyCloudy => 0
  | Weather.rain => -(2/5)
  | Weather.snow => -(1/2)
  | Weather.thunderstorm => -(3/5)
  | Weather.hot => -(1/5)
  | Weather.cold => -(3/10)
  | Weather.cool => 0

/-- Embeds _calculate_base_rating_score: 4.0 plus day-of-week, venue-type,
weather and special-event adjustments plus a gauss draw g, clamped to
[1, 5]. -/
def calcBaseRatingScore (ev : Event) (venue : Venue) (g : ℚ) : ℚ :=
  let s0 : ℚ := 4
  let s1 := if weekday ev.eventDate = 3 then s0 + 3/10
    else if weekday ev.eventDate = 5 then s0 - 1/10 else s0
  let s2 := s1 + venueRatingAdj venue.vtype
  let s3 := match ev.weather with
    | some w => s2 + weatherRatingAdj w
    | none => s2
  let s4 := if ev.specialEvent then s3 + 2/5 else s3
  let s5 := s4 + g
  max 1 (min 5 s5)

/-- Embeds _generate_rating_score: segment shift plus a gauss draw g,
verified-user penalty, rounding to the nearest 0.5 (Python round, half to
even) and clamping to [1, 5]. -/
def genRatingScore (base : ℚ) (seg : Segment) (verified : Bool) (g : ℚ) : ℚ :=
  let s1 := match seg with
    | Segment.powerUser => base - 1/5 + g
    | Segment.casual => base + 1/10 + g
    | Segment.regular => base + g
  let s2 := if verified then s1 - 1/10 else s1
  let s3 := (pyround (s2 * 2) : ℚ) / 2
  max 1 (min 5 s3)

/-- Embeds _generate_days_after_event: 60% within 3 days, 30% within a
week, 10% within 8-30 days. -/
def genDaysAfterEvent (u : ℚ) (d : ℕ) : ℕ :=
  if u < 3/5 then 1 + d % 3
  else if u < 9/10 then 4 + d % 4
  else 8 + d % 23

/-- Random draws consumed for one organic rating. -/
structure RatingDraws where
  userIdx : ℕ
  g : ℚ
  tzU : ℚ
  tzDaysD : ℕ
  afterU : ℚ
  afterD : ℕ
  reviewU : ℚ
  titleD : ℕ
  textD : ℕ
  verifU : ℚ
  helpD : ℕ
  reportU : ℚ
  deriving Repr

/-- Embeds one iteration of the per-event rating loop in
generate_event_ratings: user selection, score, timing (with the 2%
timezone anomaly), optional review (modelled as pool indices), helpful
count and reported flag. -/
def mkOrganicRating (users : List User) (ev : Event) (base : ℚ) (rid : ℕ)
    (d : RatingDraws) : Rating :=
  let user := users.getD (d.userIdx % users.length) defaultUser
  let score := genRatingScore base user.segment user.verified d.g
  let tz := d.tzU < 1/50
  let daysAfter : ℤ :=
    if tz then -(1 + (d.tzDaysD % 3 : ℕ) : ℤ)
    else (genDaysAfterEvent d.afterU d.afterD : ℤ)
  let hasReview := d.reviewU < 3/10
  { ratingId := rid
    eventId := ev.eventId
    userId := user.userId
    score := score
    ratingDate := ev.eventDate + daysAfter
    daysAfter := daysAfter
    reviewTitle := if hasReview then some (d.titleD % 6) else none
    reviewText := if hasReview then some (d.textD % 3) else none
    verifiedAttendance := decide (d.verifU < 7/10)
    helpfulCount := if hasReview then d.helpD % 21 else 0
    reported := decide (d.reportU < 1/100) }

/-- Random draws consumed for one completed event in
generate_event_ratings: the gauss draw behind the rating count, the base
score gauss draw, and per-rating draws. -/
structure OrganicEventDraws where
  numG : ℚ
  baseG : ℚ
  perRating : ℕ → RatingDraws

/-- Venue lookup by venue_id (venues_dict). -/
def venueOf (venues : List Venue) (vid : ℕ) : Venue :=
  (venues.find? fun v => decide (v.venueId = vid)).getD defaultVenue

/-- Embeds the body of generate_event_ratings for one completed event:
num_ratings = max(1, int(gauss draw)) ratings, ids continuing from
startId. -/
def ratingsForEvent (users : List User) (ev : Event) (venue : Venue)
    (startId : ℕ) (d : OrganicEventDraws) : List Rating :=
  let num := (max 1 (pyint d.numG)).toNat
  let base := calcBaseRatingScore ev venue d.baseG
  (List.range num).map fun j => mkOrganicRating users ev base (startId + j) (d.perRating j)

/-- Embeds generate_event_ratings (before the data-quality injection):
walks completed events in order, with the global rating_id_counter equal to
one plus the number of ratings so far. -/
def generateEventRatings (users : List User) (venues : List Venue)
    (events : List Event) (o : ℕ → OrganicEventDraws) : List Rating :=
  ((events.filter fun e => decide (e.status = EventStatus.completed)).foldl
    (fun (p : List Rating × ℕ) e =>
      (p.1 ++ ratingsForEvent users e (venueOf venues e.venueId) (p.1.length + 1) (o p.2),
       p.2 + 1))
    ([], 0)).1

/-- Number of duplicate ratings injected by _add_duplicate_ratings:
int(len(ratings) * 0.15). -/
def dupCount (len : ℕ) : ℕ := 3 * len / 20

/-- The duplicate rows _add_duplicate_ratings appends: the i-th copy is
appended when the table holds len + i rows, so its new id is
(len + i) + dupCount. -/
def dupRatings (rs : List Rating) (pick : ℕ → ℕ) : List Rating :=
  (List.range (dupCount rs.length)).map fun i =>
    { rs.getD (pick i) defaultRating with ratingId := rs.length + dupCount rs.length + i }

/-- Embeds _add_duplicate_ratings: dupCount sampled rows (sample indices
supplied by pick) are copied and appended with fresh ids. -/
def addDuplicateRatings (rs : List Rating) (pick : ℕ → ℕ) : List Rating :=
  rs ++ dupRatings rs pick

/-- Number of events selected for bot attack by _add_bot_attacks:
int(len(self.events) * 0.01) - one percent of ALL events, sampled from the
completed ones. -/
def botAttackTargetCount (events : List Event) : ℕ := events.length / 100

/-- Number of bot ratings one attacked event receives:
random.randint(20, 50). -/
def botCount (x : ℕ) : ℕ := 20 + x % 31

/-- Random draws for one bot rating. -/
structure BotRatingDraws where
  userD : ℕ
  scoreU : ℚ
  minuteD : ℕ
  reportU : ℚ
  deriving Repr

/-- Embeds one bot rating of _add_bot_attacks: suspicious user id in
9000-9999, score 1.0 with the draw below 0.8 else 5.0, dated the day after
the event (the attack hour plus minutes never crosses midnight), no review,
30% reported. -/
def botRating (ev : Event) (rid : ℕ) (d : BotRatingDraws) : Rating :=
  { ratingId := rid
    eventId := ev.eventId
    userId := 9000 + d.userD % 1000
    score := if d.scoreU < 4/5 then 1 else 5
    ratingDate := ev.eventDate + 1
    daysAfter := 1
    reviewTitle := none
    reviewText := none
    verifiedAttendance := false
    helpfulCount := 0
    reported := decide (d.reportU < 3/10) }

/-- Random draws for one attacked event: the attack hour, the 20-50 count
draw and the per-rating draws. -/
structure BotEventDraws where
  hourD : ℕ
  cntD : ℕ
  perR : ℕ → BotRatingDraws

/-- The block of bot ratings one attacked event receives, with consecutive
ids from startId. -/
def botBlock (ev : Event) (startId cnt : ℕ) (ds : ℕ → BotRatingDraws) : List Rating :=
  (List.range cnt).map fun j => botRating ev (startId + j) (ds j)

/-- One iteration of the _add_bot_attacks loop: appends the bot block of
the i-th sampled completed event; ids restart at len(event_ratings) + 1
and then run consecutively, which the accumulator length + 1 reproduces. -/
def botStep (events : List Event) (bd : ℕ → BotEventDraws) (pe : ℕ → ℕ)
    (acc : List Rating) (i : ℕ) : List Rating :=
  let ev := (events.filter fun e => decide (e.status = EventStatus.completed)).getD
    (pe i) defaultEvent
  acc ++ botBlock ev (acc.length + 1) (botCount (bd i).cntD) (bd i).perR

/-- Embeds _add_bot_attacks: botAttackTargetCount events sampled from the
completed ones (indices supplied by pe) each receive a botBlock of 20-50
bot ratings. -/
def addBotAttacks (events : List Event) (rs : List Rating) (pe : ℕ → ℕ)
    (bd : ℕ → BotEventDraws) : List Rating :=
  (List.range (botAttackTargetCount events)).foldl (botStep events bd pe) rs

/-- The final event_ratings table: organic ratings, then injected
duplicates, then bot attacks (generate_event_ratings tail calls). -/
def finalEventRatings (users : List User) (venues : List Venue)
    (events : List Event) (o : ℕ → OrganicEventDraws) (pick : ℕ → ℕ)
    (pe : ℕ → ℕ) (bd : ℕ → BotEventDraws) : List Rating :=
  addBotAttacks events (addDuplicateRatings (generateEventRatings users venues events o) pick) pe bd

/-- A ticket_sales record. -/
structure Sale where
  saleId : ℕ
  eventId : ℕ
  saleDate : ℤ
  daysBeforeEvent : ℤ
  quantity : ℕ
  vip : Bool
  unitPrice : ℚ
  fees : ℚ
  totalAmount : ℚ
  deriving DecidableEq, Repr

/-- Random draws consumed for one ticket sale.  r1 and r2 are the two
separate random.random() calls of the if/elif in generate_ticket_sales
(r2 is only consulted when r1 fails the first test). -/
structure SaleDraws where
  r1 : ℚ
  r2 : ℚ
  firstD : ℕ
  lastD : ℕ
  midD : ℕ
  typeU : ℚ
  qtyD : ℕ
  deriving Repr

/-- The three timing branches of generate_ticket_sales. -/
inductive SaleWindow where
  | firstWeek | lastWeek | middle
  deriving DecidableEq, Repr

/-- Embeds the branch selection of generate_ticket_sales: first week when
r1 < 0.4; otherwise a SECOND draw r2 decides last week (r2 < 0.3) versus
the middle of the window, exactly as the source if/elif does. -/
def saleWindow (d : SaleDraws) : SaleWindow :=
  if d.r1 < 2/5 then SaleWindow.firstWeek
  else if d.r2 < 3/10 then SaleWindow.lastWeek
  else SaleWindow.middle

/-- Embeds days_after_onsale for a window of windowLen days. -/
def daysAfterOnSale (windowLen : ℤ) (d : SaleDraws) : ℤ :=
  match saleWindow d with
  | SaleWindow.firstWeek => (d.firstD % 8 : ℕ)
  | SaleWindow.lastWeek => windowLen - (d.lastD % 8 : ℕ)
  | SaleWindow.middle => 8 + (d.midD % ((max 8 (windowLen - 8)).toNat - 8 + 1) : ℕ)

/-- Number of sale transactions generate_ticket_sales creates for one
event: int(estimated_attendance / 2.5). -/
def numSales (att : ℕ) : ℕ := 2 * att / 5

/-- Embeds the body of the per-sale loop of generate_ticket_sales. -/
def mkSale (ev : Event) (fee : ℚ) (saleId : ℕ) (d : SaleDraws) : Sale :=
  let windowLen := ev.eventDate - ev.onSaleDate
  let offs := daysAfterOnSale windowLen d
  let saleDate := ev.onSaleDate + max 0 offs
  let pick := match ev.vipPrice with
    | some p => if d.typeU < 3/20 then (true, p) else (false, ev.basePrice)
    | none => (false, ev.basePrice)
  let qty := d.qtyD % 6 + 1
  let fees := fee * qty
  { saleId := saleId
    eventId := ev.eventId
    saleDate := saleDate
    daysBeforeEvent := max 0 (ev.eventDate - saleDate)
    quantity := qty
    vip := pick.1
    unitPrice := pick.2
    fees := round2 fees
    totalAmount := round2 (pick.2 * qty + fees) }

/-- The sales generate_ticket_sales creates for one event with known
attendance att: exactly numSales att transactions, ids from startId. -/
def salesForEvent (ev : Event) (fee : ℚ) (att : ℕ) (startId : ℕ)
    (ds : ℕ → SaleDraws) : List Sale :=
  (List.range (numSales att)).map fun j => mkSale ev fee (startId + j) (ds j)

/-- A sale-draw record with both uniform draws on a 1/10 grid and all other
draws zeroed, used to count branch frequencies of saleWindow. -/
def gridSaleDraws (i j : ℕ) : SaleDraws :=
  { r1 := (i : ℚ) / 10, r2 := (j : ℚ) / 10, firstD := 0, lastD := 0, midD := 0,
    typeU := 0, qtyD := 0 }

/-- Frequency (out of 100) of each saleWindow branch when the two uniform
draws range over the grid 0.0, 0.1, ..., 0.9 - the exact branch measure,
since the branch tests compare against multiples of 1/10. -/
def windowGridCount (w : SaleWindow) : ℕ :=
  ((List.range 10).map fun i =>
    ((List.range 10).filter fun j => decide (saleWindow (gridSaleDraws i j) = w)).length).sum

/-- All-zero _create_event draws (cancel and special draws at 1 so the
event completes and is not special). -/
def zeroCreateDraws : CreateEventDraws :=
  { priceU := 0, announceD := 0, saleGapD := 0, vipU := 1, cancelU := 1,
    fillU := 0, weatherW := Weather.clear, specialU := 1 }

/-- All-zero tour oracle. -/
def zeroTourOracle : TourOracle :=
  { gapD := fun _ => 0, venueD := fun _ => 0, evD := fun _ => zeroCreateDraws }

/-- All-zero fill oracle. -/
def zeroFillOracle : FillOracle :=
  { artistD := fun _ => 0, venueD := fun _ => 0, dayD := fun _ => 0,
    dowD := fun _ => 0, evD := fun _ => zeroCreateDraws }

/-- All-zero generate_events oracle. -/
def zeroGenOracle : GenOracle := { tourO := fun _ => zeroTourOracle, fill := zeroFillOracle }

lemma tierFill_combo_le_one (t : Tier) (u : ℚ) (h0 : 0 ≤ u) (h1 : u ≤ 1) :
    (tierFillRange t).1 + u * ((tierFillRange t).2 - (tierFillRange t).1) ≤ 1 := by
  cases t <;> simp only [tierFillRange] <;> nlinarith

lemma eventFill_le_one (t : Tier) (ed : ℤ) (u : ℚ) (h0 : 0 ≤ u) (h1 : u ≤ 1) :
    eventFill t ed u ≤ 1 := by
  unfold eventFill
  dsimp only
  split
  · exact min_le_left _ _
  · exact tierFill_combo_le_one t u h0 h1

lemma pyint_le_of_le (q : ℚ) (c : ℤ) (hq : q ≤ (c : ℚ)) (hc : 0 ≤ c) : pyint q ≤ c := by
  unfold pyint
  split
  · calc ⌊q⌋ ≤ ⌊(c : ℚ)⌋ := Int.floor_le_floor hq
      _ = c := Int.floor_intCast c
  · next h =>
    have hq' : (0 : ℚ) ≤ -q := by linarith [not_le.mp h]
    have : 0 ≤ ⌊-q⌋ := Int.floor_nonneg.mpr hq'
    omega

/-- C8: for every event produced by _create_event, estimated_attendance is
present exactly when the event status is completed, and any attendance
value is at most the venue capacity (the fill fraction never exceeds 1,
Thursday boost included). -/
theorem event_attendance_iff_completed_and_bounded
    (today : ℤ) (eid aid : ℕ) (tier : Tier) (venue : Venue) (eventDate : ℤ)
    (tourId : Option ℕ) (d : CreateEventDraws)
    (h0 : 0 ≤ d.fillU) (h1 : d.fillU ≤ 1) :
    ((createEvent today eid aid tier venue eventDate tourId d).estimatedAttendance.isSome
      ↔ (createEvent today eid aid tier venue eventDate tourId d).status = EventStatus.completed) ∧
    (∀ v, (createEvent today eid aid tier venue eventDate tourId d).estimatedAttendance = some v →
      v ≤ (venue.capacity : ℤ)) := by
  have hfill := eventFill_le_one tier eventDate d.fillU h0 h1
  have hcap : (venue.capacity : ℚ) * eventFill tier eventDate d.fillU ≤ ((venue.capacity : ℤ) : ℚ) := by
    push_cast
    have h : (0 : ℚ) ≤ (venue.capacity : ℚ) := by positivity
    nlinarith
  have hp := pyint_le_of_le _ _ hcap (by positivity)
  unfold createEvent
  dsimp only
  constructor
  · split_ifs <;> simp_all
  · intro v hv
    split_ifs at hv <;>
      first
        | exact Option.noConfusion hv
        | exact (Option.some.inj hv) ▸ hp

/-- C8 witness at concrete input. -/
theorem event_attendance_iff_completed_and_bounded_witness :
    (0 : ℚ) ≤ zeroCreateDraws.fillU ∧ zeroCreateDraws.fillU ≤ 1 ∧
    (((createEvent 0 1 1 Tier.megastar defaultVenue (-3) none zeroCreateDraws).estimatedAttendance.isSome
      ↔ (createEvent 0 1 1 Tier.megastar defaultVenue (-3) none zeroCreateDraws).status = EventStatus.completed) ∧
    (∀ v, (createEvent 0 1 1 Tier.megastar defaultVenue (-3) none zeroCreateDraws).estimatedAttendance = some v →
      v ≤ (defaultVenue.capacity : ℤ))) :=
  ⟨by decide, by decide,
    event_attendance_iff_completed_and_bounded 0 1 1 Tier.megastar defaultVenue (-3) none
      zeroCreateDraws (by decide) (by decide)⟩

lemma eventBasePrice_eq (tier : Tier) (vt : VenueType) (ed : ℤ) (u : ℚ) :
    eventBasePrice tier vt ed u =
      ((tierPriceRange tier).1 + u * ((tierPriceRange tier).2 - (tierPriceRange tier).1)) *
        venuePriceFactor vt * (if weekday ed = 4 ∨ weekday ed = 5 then 6/5 else 1) := by
  unfold eventBasePrice
  dsimp only
  split
  · ring
  · ring

/-- C9: every base_ticket_price equals a uniform sample of the half-open
tier price range, times the venue-type factor, times 1.2 exactly on a
Friday or Saturday, rounded to two decimals. -/
theorem event_base_price_formula
    (today : ℤ) (eid aid : ℕ) (tier : Tier) (venue : Venue) (eventDate : ℤ)
    (tourId : Option ℕ) (d : CreateEventDraws)
    (h0 : 0 ≤ d.priceU) (h1 : d.priceU < 1) :
    ∃ b : ℚ, (tierPriceRange tier).1 ≤ b ∧ b < (tierPriceRange tier).2 ∧
      (createEvent today eid aid tier venue eventDate tourId d).basePrice =
        round2 (b * venuePriceFactor venue.vtype *
          (if weekday eventDate = 4 ∨ weekday eventDate = 5 then 6/5 else 1)) := by
  refine ⟨(tierPriceRange tier).1 + d.priceU * ((tierPriceRange tier).2 - (tierPriceRange tier).1),
    ?_, ?_, ?_⟩
  · cases tier <;> simp only [tierPriceRange] <;> nlinarith
  · cases tier <;> simp only [tierPriceRange] <;> nlinarith
  · have hbp : (createEvent today eid aid tier venue eventDate tourId d).basePrice =
        round2 (eventBasePrice tier venue.vtype eventDate d.priceU) := rfl
    rw [hbp, eventBasePrice_eq]

/-- C9 witness at concrete input. -/
theorem event_base_price_formula_witness :
    (0 : ℚ) ≤ zeroCreateDraws.priceU ∧ zeroCreateDraws.priceU < 1 ∧
    ∃ b : ℚ, (tierPriceRange Tier.popular).1 ≤ b ∧ b < (tierPriceRange Tier.popular).2 ∧
      (createEvent 0 2 1 Tier.popular defaultVenue 4 none zeroCreateDraws).basePrice =
        round2 (b * venuePriceFactor defaultVenue.vtype *
          (if weekday 4 = 4 ∨ weekday 4 = 5 then 6/5 else 1)) :=
  ⟨by decide, by decide,
    event_base_price_formula 0 2 1 Tier.popular defaultVenue 4 none zeroCreateDraws
      (by decide) (by decide)⟩

/-- C4 counterexample: with every random draw held fixed, changing only the
current date (datetime.now()) flips an event from scheduled to completed,
so the generated tables are not a function of the seeds alone. -/
theorem createEvent_depends_on_current_date :
    (createEvent 5 3 1 Tier.popular defaultVenue 10 none zeroCreateDraws).status
      = EventStatus.scheduled ∧
    (createEvent 20 3 1 Tier.popular defaultVenue 10 none zeroCreateDraws).status
      = EventStatus.completed ∧
    createEvent 5 3 1 Tier.popular defaultVenue 10 none zeroCreateDraws ≠
      createEvent 20 3 1 Tier.popular defaultVenue 10 none zeroCreateDraws := by
  have h1 : (createEvent 5 3 1 Tier.popular defaultVenue 10 none zeroCreateDraws).status
      = EventStatus.scheduled := rfl
  have h2 : (createEvent 20 3 1 Tier.popular defaultVenue 10 none zeroCreateDraws).status
      = EventStatus.completed := by
    simp only [createEvent, zeroCreateDraws]
    norm_num
  refine ⟨h1, h2, fun h => ?_⟩
  have h3 := congrArg Event.status h
  rw [h1, h2] at h3
  exact EventStatus.noConfusion h3

/-- C4 (amended): generate_events is a deterministic function of the random
draws and the current date together - two runs whose oracles agree
pointwise, on the same current date, produce identical results. -/
theorem generateEvents_deterministic
    (today : ℤ) (artists : List Artist) (venues : List Venue) (tours : List Tour)
    (n fuel : ℕ) (o₁ o₂ : GenOracle)
    (ht : ∀ i, o₁.tourO i = o₂.tourO i)
    (ha : ∀ i, o₁.fill.artistD i = o₂.fill.artistD i)
    (hv : ∀ i, o₁.fill.venueD i = o₂.fill.venueD i)
    (hd : ∀ i, o₁.fill.dayD i = o₂.fill.dayD i)
    (hw : ∀ i, o₁.fill.dowD i = o₂.fill.dowD i)
    (he : ∀ i, o₁.fill.evD i = o₂.fill.evD i) :
    generateEvents today artists venues tours n o₁ fuel =
      generateEvents today artists venues tours n o₂ fuel := by
  have heq : o₁ = o₂ := by
    obtain ⟨t₁, f₁⟩ := o₁
    obtain ⟨t₂, f₂⟩ := o₂
    obtain ⟨a₁, v₁, d₁, w₁, e₁⟩ := f₁
    obtain ⟨a₂, v₂, d₂, w₂, e₂⟩ := f₂
    congr 1
    · exact funext ht
    · congr 1
      · exact funext ha
      · exact funext hv
      · exact funext hd
      · exact funext hw
      · exact funext he
  rw [heq]

/-- C4 witness at concrete input. -/
theorem generateEvents_deterministic_witness :
    (∀ i, zeroGenOracle.tourO i = zeroGenOracle.tourO i) ∧
    generateEvents 0 [] [] [] 0 zeroGenOracle 1 = generateEvents 0 [] [] [] 0 zeroGenOracle 1 :=
  ⟨fun _ => rfl,
    generateEvents_deterministic 0 [] [] [] 0 1 zeroGenOracle zeroGenOracle
      (fun _ => rfl) (fun _ => rfl) (fun _ => rfl) (fun _ => rfl) (fun _ => rfl) (fun _ => rfl)⟩

/-- C3: every event with known attendance gets exactly
int(attendance / 2.5) sales, but the timing branches are NOT 40/30/30: the
elif draws a second uniform, so over the draw grid the last-week branch is
taken 18% of the time and the middle branch 42% (the source comments and
the spec both say 30/30). -/
theorem ticket_sale_count_and_window_frequencies :
    (∀ ev fee att sid ds, (salesForEvent ev fee att sid ds).length = numSales att) ∧
    windowGridCount SaleWindow.firstWeek = 40 ∧
    windowGridCount SaleWindow.lastWeek = 18 ∧
    windowGridCount SaleWindow.middle = 42 := by
  refine ⟨?_, ?_, ?_, ?_⟩
  · intro ev fee att sid ds
    simp [salesForEvent]
  · simp only [windowGridCount]
    norm_num [gridSaleDraws, saleWindow, List.range_succ, List.filter_cons, List.filter_nil]
    decide
  · simp only [windowGridCount]
    norm_num [gridSaleDraws, saleWindow, List.range_succ, List.filter_cons, List.filter_nil]
    decide
  · simp only [windowGridCount]
    norm_num [gridSaleDraws, saleWindow, List.range_succ, List.filter_cons, List.filter_nil]
    decide

/-- The rating_score invariant of the spec: in [1, 5] and a multiple of
one half. -/
def ValidScore (q : ℚ) : Prop := 1 ≤ q ∧ q ≤ 5 ∧ ∃ k : ℤ, q = (k : ℚ) / 2

lemma validScore_one : ValidScore 1 := ⟨le_refl 1, by norm_num, 2, by norm_num⟩

lemma validScore_five : ValidScore 5 := ⟨by norm_num, le_refl 5, 10, by norm_num⟩

lemma validScore_clamp (k : ℤ) : ValidScore (max 1 (min 5 ((k : ℚ) / 2))) := by
  refine ⟨le_max_left _ _, max_le (by norm_num) (min_le_left _ _), ?_⟩
  rcases le_total ((k : ℚ) / 2) 1 with h | h
  · refine ⟨2, ?_⟩
    rw [min_eq_right (le_trans h (by norm_num)), max_eq_left h]
    norm_num
  · rcases le_total ((k : ℚ) / 2) 5 with h5 | h5
    · exact ⟨k, by rw [min_eq_right h5, max_eq_right h]⟩
    · refine ⟨10, ?_⟩
      rw [min_eq_left h5, max_eq_right (by norm_num)]
      norm_num

lemma genRatingScore_valid (base : ℚ) (seg : Segment) (verified : Bool) (g : ℚ) :
    ValidScore (genRatingScore base seg verified g) :=
  validScore_clamp _

lemma getD_mem_or_default {α : Type} (l : List α) (n : ℕ) (d : α) :
    l.getD n d ∈ l ∨ l.getD n d = d := by
  rcases lt_or_ge n l.length with h | h
  · left
    rw [List.getD_eq_getElem l d h]
    exact List.getElem_mem h
  · right
    exact List.getD_eq_default l d h

lemma ratingsForEvent_valid (users : List User) (ev : Event) (venue : Venue)
    (sid : ℕ) (d : OrganicEventDraws) :
    ∀ r ∈ ratingsForEvent users ev venue sid d, ValidScore r.score := by
  intro r hr
  unfold ratingsForEvent at hr
  simp only [List.mem_map, List.mem_range] at hr
  obtain ⟨j, -, rfl⟩ := hr
  exact genRatingScore_valid _ _ _ _

lemma generateEventRatings_valid (users : List User) (venues : List Venue)
    (events : List Event) (o : ℕ → OrganicEventDraws) :
    ∀ r ∈ generateEventRatings users venues events o, ValidScore r.score := by
  unfold generateEventRatings
  suffices h : ∀ (l : List Event) (p : List Rating × ℕ),
      (∀ r ∈ p.1, ValidScore r.score) →
      ∀ r ∈ (l.foldl (fun (p : List Rating × ℕ) e =>
        (p.1 ++ ratingsForEvent users e (venueOf venues e.venueId) (p.1.length + 1) (o p.2),
         p.2 + 1)) p).1, ValidScore r.score by
    exact h _ ([], 0) (by simp)
  intro l
  induction l with
  | nil =>
    intro p hp
    simpa using hp
  | cons e t ih =>
    intro p hp
    simp only [List.foldl_cons]
    apply ih
    intro r hr
    rcases List.mem_append.mp hr with h | h
    · exact hp r h
    · exact ratingsForEvent_valid users e _ _ _ r h

lemma dupRatings_valid (rs : List Rating) (pick : ℕ → ℕ)
    (h : ∀ r ∈ rs, ValidScore r.score) :
    ∀ r ∈ dupRatings rs pick, ValidScore r.score := by
  intro r hr
  unfold dupRatings at hr
  simp only [List.mem_map, List.mem_range] at hr
  obtain ⟨i, -, rfl⟩ := hr
  show ValidScore (rs.getD (pick i) defaultRating).score
  rcases getD_mem_or_default rs (pick i) defaultRating with hm | he
  · exact h _ hm
  · rw [he]
    exact validScore_one

lemma addBotAttacks_mem (events : List Event) (rs : List Rating) (pe : ℕ → ℕ)
    (bd : ℕ → BotEventDraws) :
    ∀ r ∈ addBotAttacks events rs pe bd, r ∈ rs ∨ r.score = 1 ∨ r.score = 5 := by
  unfold addBotAttacks
  suffices h : ∀ (l : List ℕ) (acc : List Rating),
      (∀ r ∈ acc, r ∈ rs ∨ r.score = 1 ∨ r.score = 5) →
      ∀ r ∈ l.foldl (botStep events bd pe) acc, r ∈ rs ∨ r.score = 1 ∨ r.score = 5 by
    exact h _ rs (fun r hr => Or.inl hr)
  intro l
  induction l with
  | nil =>
    intro acc hacc
    simpa using hacc
  | cons i t ih =>
    intro acc hacc
    simp only [List.foldl_cons]
    apply ih
    intro r hr
    unfold botStep at hr
    rcases List.mem_append.mp hr with h | h
    · exact hacc r h
    · right
      unfold botBlock at h
      simp only [List.mem_map, List.mem_range] at h
      obtain ⟨j, -, rfl⟩ := h
      by_cases hc : ((bd i).perR j).scoreU < 4/5
      · left
        simp [botRating, hc]
      · right
        simp [botRating, hc]

/-- C5: every row of the final event_ratings table - organic ratings,
injected duplicates and bot ratings alike - has a score within [1, 5] that
is an integer multiple of 0.5. -/
theorem final_rating_scores_valid (users : List User) (venues : List Venue)
    (events : List Event) (o : ℕ → OrganicEventDraws) (pick : ℕ → ℕ)
    (pe : ℕ → ℕ) (bd : ℕ → BotEventDraws) :
    ∀ r ∈ finalEventRatings users venues events o pick pe bd, ValidScore r.score := by
  intro r hr
  unfold finalEventRatings at hr
  rcases addBotAttacks_mem _ _ _ _ r hr with h | h | h
  · unfold addDuplicateRatings at h
    rcases List.mem_append.mp h with h' | h'
    · exact generateEventRatings_valid users venues events o r h'
    · exact dupRatings_valid _ _ (generateEventRatings_valid users venues events o) r h'
  · rw [h]
    exact validScore_one
  · rw [h]
    exact validScore_five

/-- A concrete completed event used in witnesses and counterexamples. -/
def evCompleted : Event := { defaultEvent with eventId := 1, status := EventStatus.completed }

/-- All-zero per-rating draws. -/
def zeroRatingDraws : RatingDraws :=
  { userIdx := 0, g := 0, tzU := 1, tzDaysD := 0, afterU := 0, afterD := 0,
    reviewU := 1, titleD := 0, textD := 0, verifU := 1, helpD := 0, reportU := 1 }

/-- All-zero per-event organic draws. -/
def zeroOrganicDraws : OrganicEventDraws :=
  { numG := 0, baseG := 0, perRating := fun _ => zeroRatingDraws }

/-- All-zero per-bot-rating draws. -/
def zeroBotRatingDraws : BotRatingDraws :=
  { userD := 0, scoreU := 0, minuteD := 0, reportU := 1 }

/-- All-zero per-attacked-event draws. -/
def zeroBotEventDraws : BotEventDraws :=
  { hourD := 0, cntD := 0, perR := fun _ => zeroBotRatingDraws }

/-- A one-event, one-rating concrete run of the full ratings pipeline. -/
def witnessRatingTable : List Rating :=
  finalEventRatings [] [] [evCompleted] (fun _ => zeroOrganicDraws)
    (fun _ => 0) (fun _ => 0) (fun _ => zeroBotEventDraws)

/-- C5 witness at a concrete table. -/
theorem final_rating_scores_valid_witness :
    witnessRatingTable.getD 0 defaultRating ∈ witnessRatingTable ∧
    ValidScore (witnessRatingTable.getD 0 defaultRating).score := by
  have hlen : 0 < witnessRatingTable.length := by
    have h1 : witnessRatingTable.length = 1 := rfl
    omega
  have hmem : witnessRatingTable.getD 0 defaultRating ∈ witnessRatingTable := by
    rw [List.getD_eq_getElem _ _ hlen]
    exact List.getElem_mem hlen
  exact ⟨hmem,
    final_rating_scores_valid [] [] [evCompleted] (fun _ => zeroOrganicDraws)
      (fun _ => 0) (fun _ => 0) (fun _ => zeroBotEventDraws) _ hmem⟩

/-- C7: _add_duplicate_ratings appends exactly int(0.15 * len) rows; each
appended row equals the sampled existing row on every field except
rating_id, and its new rating_id collides with no existing id (organic ids
run 1..len). -/
theorem duplicate_injection_shape (rs : List Rating) (pick : ℕ → ℕ)
    (hpick : ∀ i, i < dupCount rs.length → pick i < rs.length)
    (hids : ∀ r ∈ rs, r.ratingId ≤ rs.length) :
    ∃ dups : List Rating,
      addDuplicateRatings rs pick = rs ++ dups ∧
      dups.length = dupCount rs.length ∧
      ∀ d ∈ dups, ∃ r ∈ rs,
        ({ d with ratingId := r.ratingId } = r) ∧
        ∀ r' ∈ rs, r'.ratingId ≠ d.ratingId := by
  refine ⟨dupRatings rs pick, rfl, ?_, ?_⟩
  · unfold dupRatings
    simp
  · intro d hd
    unfold dupRatings at hd
    simp only [List.mem_map, List.mem_range] at hd
    obtain ⟨i, hi, rfl⟩ := hd
    have hp := hpick i hi
    refine ⟨rs.getD (pick i) defaultRating, ?_, rfl, ?_⟩
    · rw [List.getD_eq_getElem _ _ hp]
      exact List.getElem_mem hp
    · intro r' hr'
      have hr'id := hids r' hr'
      show r'.ratingId ≠ rs.length + dupCount rs.length + i
      omega

/-- A concrete organic table of fourteen ratings with ids 1..14. -/
def rsFourteen : List Rating :=
  (List.range 14).map fun i => { defaultRating with ratingId := i + 1 }

/-- C7 witness at a concrete table. -/
theorem duplicate_injection_shape_witness :
    (∀ i, i < dupCount rsFourteen.length → i < rsFourteen.length) ∧
    (∀ r ∈ rsFourteen, r.ratingId ≤ rsFourteen.length) ∧
    ∃ dups : List Rating,
      addDuplicateRatings rsFourteen (fun i => i) = rsFourteen ++ dups ∧
      dups.length = dupCount rsFourteen.length ∧
      ∀ d ∈ dups, ∃ r ∈ rsFourteen,
        ({ d with ratingId := r.ratingId } = r) ∧
        ∀ r' ∈ rsFourteen, r'.ratingId ≠ d.ratingId :=
  ⟨by decide, by decide,
    duplicate_injection_shape rsFourteen (fun i => i) (by decide) (by decide)⟩

lemma botBlock_length (ev : Event) (sid cnt : ℕ) (ds : ℕ → BotRatingDraws) :
    (botBlock ev sid cnt ds).length = cnt := by
  unfold botBlock
  simp

lemma botCount_bounds (x : ℕ) : 20 ≤ botCount x ∧ botCount x ≤ 50 := by
  unfold botCount
  have h31 : x % 31 < 31 := Nat.mod_lt x (by omega)
  omega

lemma addBot_fold_shape (events : List Event) (pe : ℕ → ℕ) (bd : ℕ → BotEventDraws) :
    ∀ (k : ℕ) (acc : List Rating), ∃ blocks : List (List Rating),
      (List.range k).foldl (botStep events bd pe) acc = acc ++ blocks.flatten ∧
      blocks.length = k ∧
      (∀ b ∈ blocks, ∃ i, i < k ∧ ∃ s,
        b = botBlock ((events.filter fun e => decide (e.status = EventStatus.completed)).getD
          (pe i) defaultEvent) s (botCount (bd i).cntD) ((bd i).perR)) ∧
      (0 < k → blocks.head? = some (botBlock
        ((events.filter fun e => decide (e.status = EventStatus.completed)).getD
          (pe 0) defaultEvent) (acc.length + 1) (botCount (bd 0).cntD) ((bd 0).perR))) := by
  intro k
  induction k with
  | zero =>
    intro acc
    exact ⟨[], by simp, rfl, by simp, by omega⟩
  | succ k ih =>
    intro acc
    obtain ⟨blocks, heq, hlen, hall, hhead⟩ := ih acc
    refine ⟨blocks ++ [botBlock
      ((events.filter fun e => decide (e.status = EventStatus.completed)).getD
        (pe k) defaultEvent) ((acc ++ blocks.flatten).length + 1) (botCount (bd k).cntD)
      ((bd k).perR)], ?_, ?_, ?_, ?_⟩
    · rw [List.range_succ, List.foldl_append]
      simp only [List.foldl_cons, List.foldl_nil]
      rw [heq]
      unfold botStep
      simp [List.flatten_append, List.append_assoc]
    · simp [hlen]
    · intro b hb
      rcases List.mem_append.mp hb with h | h
      · obtain ⟨i, hi, s, hs⟩ := hall b h
        exact ⟨i, by omega, s, hs⟩
      · simp only [List.mem_singleton] at h
        subst h
        exact ⟨k, by omega, _, rfl⟩
    · intro _
      rcases Nat.eq_zero_or_pos k with hk0 | hkpos
      · subst hk0
        have hb0 : blocks = [] := List.length_eq_zero.mp hlen
        subst hb0
        simp
      · have := hhead hkpos
        rcases blocks with _ | ⟨b, bs⟩
        · simp at hlen
          omega
        · simpa using this

lemma botRating_score_cases (ev : Event) (rid : ℕ) (d : BotRatingDraws) :
    (botRating ev rid d).score = 1 ∨ (botRating ev rid d).score = 5 := by
  by_cases hc : d.scoreU < 4/5
  · left
    simp [botRating, hc]
  · right
    simp [botRating, hc]

lemma botRating_userId_bounds (ev : Event) (rid : ℕ) (d : BotRatingDraws) :
    9000 ≤ (botRating ev rid d).userId ∧ (botRating ev rid d).userId ≤ 9999 := by
  have h1000 : d.userD % 1000 < 1000 := Nat.mod_lt d.userD (by omega)
  unfold botRating
  dsimp only
  omega

/-- C2 (amended): _add_bot_attacks selects int(0.01 * len(events)) events,
all completed, and gives each one a block of 20 to 50 bot ratings whose
user ids lie in 9000-9999 (USR_09000-USR_09999), whose scores are 1.0 or
5.0 (1.0 exactly when the uniform draw is below 0.8), with no review title
or text, and reported exactly when its draw is below 0.3. -/
theorem bot_attack_shape (events : List Event) (rs : List Rating) (pe : ℕ → ℕ)
    (bd : ℕ → BotEventDraws)
    (hpe : ∀ i, i < botAttackTargetCount events →
      pe i < (events.filter fun e => decide (e.status = EventStatus.completed)).length) :
    (∀ ev rid dr, (botRating ev rid dr).score = (if dr.scoreU < 4/5 then (1 : ℚ) else 5) ∧
      (botRating ev rid dr).reported = decide (dr.reportU < 3/10)) ∧
    ∃ blocks : List (List Rating),
      addBotAttacks events rs pe bd = rs ++ blocks.flatten ∧
      blocks.length = botAttackTargetCount events ∧
      ∀ b ∈ blocks,
        (20 ≤ b.length ∧ b.length ≤ 50) ∧
        (∃ e ∈ events, e.status = EventStatus.completed ∧ ∀ r ∈ b, r.eventId = e.eventId) ∧
        (∀ r ∈ b, 9000 ≤ r.userId ∧ r.userId ≤ 9999 ∧ (r.score = 1 ∨ r.score = 5) ∧
          r.reviewTitle = none ∧ r.reviewText = none) := by
  refine ⟨fun ev rid dr => ⟨rfl, rfl⟩, ?_⟩
  obtain ⟨blocks, heq, hlen, hall, -⟩ :=
    addBot_fold_shape events pe bd (botAttackTargetCount events) rs
  refine ⟨blocks, heq, hlen, ?_⟩
  intro b hb
  obtain ⟨i, hik, s, rfl⟩ := hall b hb
  have hp := hpe i hik
  have hmem : (events.filter fun e => decide (e.status = EventStatus.completed)).getD
      (pe i) defaultEvent ∈ events.filter fun e => decide (e.status = EventStatus.completed) := by
    rw [List.getD_eq_getElem _ _ hp]
    exact List.getElem_mem hp
  have hmem' := List.mem_filter.mp hmem
  refine ⟨?_, ⟨_, hmem'.1, of_decide_eq_true hmem'.2, ?_⟩, ?_⟩
  · rw [botBlock_length]
    exact botCount_bounds _
  · intro r hr
    unfold botBlock at hr
    simp only [List.mem_map, List.mem_range] at hr
    obtain ⟨j, -, rfl⟩ := hr
    rfl
  · intro r hr
    unfold botBlock at hr
    simp only [List.mem_map, List.mem_range] at hr
    obtain ⟨j, -, rfl⟩ := hr
    exact ⟨(botRating_userId_bounds _ _ _).1, (botRating_userId_bounds _ _ _).2,
      botRating_score_cases _ _ _, rfl, rfl⟩

/-- A concrete event table with 200 events of which 100 are completed. -/
def cexEvents : List Event := List.replicate 100 evCompleted ++ List.replicate 100 defaultEvent

/-- C2 counterexample: the number of attacked events is one percent of ALL
events, not one percent of the completed events - on a table of 200 events
with 100 completed, the code attacks 2 events while the claim demands 1. -/
theorem bot_attack_count_mismatch :
    botAttackTargetCount cexEvents = 2 ∧
    (cexEvents.filter fun e => decide (e.status = EventStatus.completed)).length / 100 = 1 ∧
    botAttackTargetCount cexEvents ≠
      (cexEvents.filter fun e => decide (e.status = EventStatus.completed)).length / 100 := by
  refine ⟨rfl, rfl, ?_⟩
  decide

/-- A concrete event table of 100 completed events. -/
def repEvents : List Event := List.replicate 100 evCompleted

/-- C2 witness at a concrete table. -/
theorem bot_attack_shape_witness :
    (∀ i, i < botAttackTargetCount repEvents →
      (fun _ => 0 : ℕ → ℕ) i <
        (repEvents.filter fun e => decide (e.status = EventStatus.completed)).length) ∧
    ((∀ ev rid dr, (botRating ev rid dr).score = (if dr.scoreU < 4/5 then (1 : ℚ) else 5) ∧
      (botRating ev rid dr).reported = decide (dr.reportU < 3/10)) ∧
    ∃ blocks : List (List Rating),
      addBotAttacks repEvents [] (fun _ => 0) (fun _ => zeroBotEventDraws) = [] ++ blocks.flatten ∧
      blocks.length = botAttackTargetCount repEvents ∧
      ∀ b ∈ blocks,
        (20 ≤ b.length ∧ b.length ≤ 50) ∧
        (∃ e ∈ repEvents, e.status = EventStatus.completed ∧ ∀ r ∈ b, r.eventId = e.eventId) ∧
        (∀ r ∈ b, 9000 ≤ r.userId ∧ r.userId ≤ 9999 ∧ (r.score = 1 ∨ r.score = 5) ∧
          r.reviewTitle = none ∧ r.reviewText = none)) :=
  ⟨by decide,
    bot_attack_shape repEvents [] (fun _ => 0) (fun _ => zeroBotEventDraws) (by decide)⟩

lemma addDuplicateRatings_length (rs : List Rating) (pick : ℕ → ℕ) :
    (addDuplicateRatings rs pick).length = rs.length + dupCount rs.length := by
  unfold addDuplicateRatings dupRatings
  simp

lemma addBotAttacks_first (events : List Event) (rs : List Rating) (pe : ℕ → ℕ)
    (bd : ℕ → BotEventDraws) (hk : 0 < botAttackTargetCount events) :
    ∃ y ∈ (addBotAttacks events rs pe bd).drop rs.length, y.ratingId = rs.length + 1 := by
  obtain ⟨blocks, heq, hlen, -, hhead⟩ :=
    addBot_fold_shape events pe bd (botAttackTargetCount events) rs
  have heq' : addBotAttacks events rs pe bd = rs ++ blocks.flatten := heq
  have hb0 := hhead hk
  have hdrop : (addBotAttacks events rs pe bd).drop rs.length = blocks.flatten := by
    rw [heq', List.drop_left]
  refine ⟨botRating
    ((events.filter fun e => decide (e.status = EventStatus.completed)).getD
      (pe 0) defaultEvent) (rs.length + 1 + 0) ((bd 0).perR 0), ?_, rfl⟩
  rw [hdrop]
  apply List.mem_flatten.mpr
  refine ⟨botBlock
    ((events.filter fun e => decide (e.status = EventStatus.completed)).getD
      (pe 0) defaultEvent) (rs.length + 1) (botCount (bd 0).cntD) ((bd 0).perR), ?_, ?_⟩
  · exact List.mem_of_mem_head? hb0
  · unfold botBlock
    have hpos : 0 < botCount (bd 0).cntD := by
      unfold botCount
      omega
    exact List.mem_map.mpr ⟨0, List.mem_range.mpr hpos, rfl⟩

/-- C10: whenever at least two duplicates and at least one bot rating are
injected, a bot rating reuses the rating_id of an earlier duplicate row:
duplicate ids run upward from len + dupCount while bot ids restart at the
post-duplicate length + 1, which falls inside the duplicate id range. -/
theorem duplicate_and_bot_id_collision (rs : List Rating) (events : List Event)
    (pick pe : ℕ → ℕ) (bd : ℕ → BotEventDraws)
    (hd : 2 ≤ dupCount rs.length) (he : 100 ≤ events.length) :
    ∃ x ∈ (addDuplicateRatings rs pick).drop rs.length,
      ∃ y ∈ (addBotAttacks events (addDuplicateRatings rs pick) pe bd).drop
        (addDuplicateRatings rs pick).length,
        x.ratingId = y.ratingId := by
  have hdrop : (addDuplicateRatings rs pick).drop rs.length = dupRatings rs pick := by
    unfold addDuplicateRatings
    rw [List.drop_left]
  refine ⟨{ rs.getD (pick 1) defaultRating with
      ratingId := rs.length + dupCount rs.length + 1 }, ?_, ?_⟩
  · rw [hdrop]
    unfold dupRatings
    exact List.mem_map.mpr ⟨1, List.mem_range.mpr (by omega), rfl⟩
  · have hk : 0 < botAttackTargetCount events := by
      unfold botAttackTargetCount
      omega
    obtain ⟨y, hy, hid⟩ := addBotAttacks_first events (addDuplicateRatings rs pick) pe bd hk
    refine ⟨y, hy, ?_⟩
    rw [hid, addDuplicateRatings_length]

/-- C10 witness at concrete inputs: 14 organic ratings give 2 duplicates,
100 events give 1 attacked event. -/
theorem duplicate_and_bot_id_collision_witness :
    2 ≤ dupCount rsFourteen.length ∧ 100 ≤ repEvents.length ∧
    ∃ x ∈ (addDuplicateRatings rsFourteen (fun i => i)).drop rsFourteen.length,
      ∃ y ∈ (addBotAttacks repEvents (addDuplicateRatings rsFourteen (fun i => i))
        (fun _ => 0) (fun _ => zeroBotEventDraws)).drop
          (addDuplicateRatings rsFourteen (fun i => i)).length,
        x.ratingId = y.ratingId :=
  ⟨by decide, by decide,
    duplicate_and_bot_id_collision rsFourteen repEvents (fun i => i) (fun _ => 0)
      (fun _ => zeroBotEventDraws) (by decide) (by decide)⟩

/-- Invariant of the generate_events loops: every event date is booked in
its artist calendar, the (artist, date) pairs are pairwise distinct, and
the event counter tracks the table length and never exceeds n + 1. -/
def GenInv (n : ℕ) (st : GenState) : Prop :=
  (∀ e ∈ st.events, e.eventDate ∈ st.calendar e.artistId) ∧
  (st.events.map fun e => (e.artistId, e.eventDate)).Nodup ∧
  st.counter = st.events.length + 1 ∧
  st.counter ≤ n + 1

lemma genInv_start (n : ℕ) : GenInv n startState := by
  refine ⟨?_, ?_, rfl, ?_⟩ <;> simp [startState]

lemma bookEvent_inv (n : ℕ) (st : GenState) (a : ℕ) (dt : ℤ) (ev : Event)
    (hInv : GenInv n st) (hc : st.counter ≤ n)
    (hfree : dt ∉ st.calendar a) (ha : ev.artistId = a) (hd : ev.eventDate = dt) :
    GenInv n (bookEvent st a dt ev) := by
  obtain ⟨hcal, hnd, hcount, hle⟩ := hInv
  subst ha
  subst hd
  refine ⟨?_, ?_, ?_, ?_⟩
  · intro e he
    unfold bookEvent
    dsimp only
    rcases List.mem_append.mp he with h | h
    · have hmem := hcal e h
      split
      · next hxa => exact List.mem_append_left _ (hxa ▸ hmem)
      · exact hmem
    · rw [List.mem_singleton] at h
      subst h
      split
      · exact List.mem_append_right _ (List.mem_singleton.mpr rfl)
      · next hxa => exact absurd rfl hxa
  · unfold bookEvent
    dsimp only
    rw [List.map_append, List.nodup_append]
    refine ⟨hnd, List.nodup_singleton _, ?_⟩
    intro p hp hp'
    simp only [List.map_singleton, List.mem_singleton] at hp'
    subst hp'
    simp only [List.mem_map] at hp
    obtain ⟨e, he, hpe⟩ := hp
    have h1 : e.artistId = ev.artistId := congrArg Prod.fst hpe
    have h2 : e.eventDate = ev.eventDate := congrArg Prod.snd hpe
    have hmem := hcal e he
    rw [h1, h2] at hmem
    exact hfree hmem
  · unfold bookEvent
    dsimp only
    rw [hcount]
    simp
  · unfold bookEvent
    dsimp only
    omega

lemma tourLoop_inv (today : ℤ) (venues : List Venue) (tierOf : ℕ → Tier) (n : ℕ)
    (tour : Tour) (o : TourOracle) :
    ∀ (fuel tc : ℕ) (cur : ℤ) (st st' : GenState),
      GenInv n st → tourLoop today venues tierOf n tour o fuel tc cur st = some st' →
      GenInv n st' := by
  intro fuel
  induction fuel with
  | zero =>
    intro tc cur st st' hInv heq
    unfold tourLoop at heq
    split at heq
    · exact absurd heq (by simp)
    · exact (Option.some.inj heq) ▸ hInv
  | succ fuel ih =>
    intro tc cur st st' hInv heq
    unfold tourLoop at heq
    split at heq
    case isTrue hguard =>
      dsimp only at heq
      split at heq
      · split at heq
        case isTrue hmem => exact ih _ _ _ _ hInv heq
        case isFalse hfree =>
          exact ih _ _ _ _
            (bookEvent_inv n st tour.artistId _ _ hInv hguard.2.2 hfree rfl rfl) heq
      · split at heq
        case isTrue hmem => exact ih _ _ _ _ hInv heq
        case isFalse hfree =>
          exact ih _ _ _ _
            (bookEvent_inv n st tour.artistId _ _ hInv hguard.2.2 hfree rfl rfl) heq
    case isFalse hguard => exact (Option.some.inj heq) ▸ hInv

lemma runTours_inv (today : ℤ) (venues : List Venue) (tierOf : ℕ → Tier) (n : ℕ)
    (tourO : ℕ → TourOracle) :
    ∀ (tours : List Tour) (idx fuel : ℕ) (st st' : GenState),
      GenInv n st → runTours today venues tierOf n tourO tours idx fuel st = some st' →
      GenInv n st' := by
  intro tours
  induction tours with
  | nil =>
    intro idx fuel st st' hInv heq
    unfold runTours at heq
    exact (Option.some.inj heq) ▸ hInv
  | cons t ts ih =>
    intro idx fuel st st' hInv heq
    unfold runTours at heq
    split at heq
    · exact absurd heq (by simp)
    · next st'' htl =>
      exact ih (idx + 1) fuel st'' st'
        (tourLoop_inv today venues tierOf n t (tourO idx) fuel 0 t.startDate st st'' hInv htl)
        heq

lemma fillLoop_inv (today : ℤ) (artists : List Artist) (venues : List Venue)
    (n : ℕ) (o : FillOracle) :
    ∀ (fuel : ℕ) (st st' : GenState),
      GenInv n st → fillLoop today artists venues n o fuel st = some st' →
      GenInv n st' := by
  intro fuel
  induction fuel with
  | zero =>
    intro st st' hInv heq
    unfold fillLoop at heq
    split at heq
    · exact absurd heq (by simp)
    · exact (Option.some.inj heq) ▸ hInv
  | succ fuel ih =>
    intro st st' hInv heq
    unfold fillLoop at heq
    split at heq
    case isTrue hguard =>
      dsimp only at heq
      split at heq
      case isTrue hmem => exact ih st st' hInv heq
      case isFalse hfree =>
        refine ih _ st' ?_ heq
        exact bookEvent_inv n st _ _ _ hInv hguard hfree rfl rfl
    case isFalse hguard => exact (Option.some.inj heq) ▸ hInv

lemma fillLoop_exit (today : ℤ) (artists : List Artist) (venues : List Venue)
    (n : ℕ) (o : FillOracle) :
    ∀ (fuel : ℕ) (st st' : GenState),
      fillLoop today artists venues n o fuel st = some st' → n < st'.counter := by
  intro fuel
  induction fuel with
  | zero =>
    intro st st' heq
    unfold fillLoop at heq
    split at heq
    · exact absurd heq (by simp)
    · next h => exact (Option.some.inj heq) ▸ (not_le.mp h)
  | succ fuel ih =>
    intro st st' heq
    unfold fillLoop at heq
    split at heq
    case isTrue hguard =>
      dsimp only at heq
      split at heq
      · exact ih _ _ heq
      · exact ih _ _ heq
    case isFalse h => exact (Option.some.inj heq) ▸ (not_le.mp h)

lemma generateEvents_inv (today : ℤ) (artists : List Artist) (venues : List Venue)
    (tours : List Tour) (n : ℕ) (o : GenOracle) (fuel : ℕ) (st' : GenState)
    (heq : generateEvents today artists venues tours n o fuel = some st') :
    GenInv n st' ∧ n < st'.counter := by
  unfold generateEvents at heq
  split at heq
  · exact absurd heq (by simp)
  · next st'' hrt =>
    exact ⟨fillLoop_inv today artists venues n o.fill fuel st'' st'
        (runTours_inv today venues (tierOfArtists artists) n o.tourO tours 0 fuel
          startState st'' (genInv_start n) hrt) heq,
      fillLoop_exit today artists venues n o.fill fuel st'' st' heq⟩

/-- C1: in any completed run of generate_events, no two events share the
same (artist_id, event_date) pair - the per-artist booked-date calendar is
checked before every append on both the tour-walk and random-fill paths. -/
theorem no_double_booking (today : ℤ) (artists : List Artist) (venues : List Venue)
    (tours : List Tour) (n : ℕ) (o : GenOracle) (fuel : ℕ) (st' : GenState)
    (heq : generateEvents today artists venues tours n o fuel = some st') :
    (st'.events.map fun e => (e.artistId, e.eventDate)).Nodup :=
  (generateEvents_inv today artists venues tours n o fuel st' heq).1.2.1

/-- C6 (amended): whenever generate_events completes, the events table
holds exactly n records. -/
theorem generateEvents_count (today : ℤ) (artists : List Artist) (venues : List Venue)
    (tours : List Tour) (n : ℕ) (o : GenOracle) (fuel : ℕ) (st' : GenState)
    (heq : generateEvents today artists venues tours n o fuel = some st') :
    st'.events.length = n := by
  obtain ⟨⟨-, -, hcount, hle⟩, hgt⟩ := generateEvents_inv today artists venues tours n o fuel st' heq
  omega

/-- A concrete artist for witness runs. -/
def witnessArtist : Artist := { artistId := 7, tier := Tier.megastar }

/-- A concrete venue for witness runs. -/
def witnessVenue : Venue :=
  { venueId := 3, vtype := VenueType.club, capacity := 200, ticketFee := 5 }

/-- A concrete completing one-event run of generate_events. -/
def witnessGenRun : Option GenState :=
  generateEvents 0 [witnessArtist] [witnessVenue] [] 1 zeroGenOracle 2

/-- C1 witness at a concrete completing run. -/
theorem no_double_booking_witness :
    witnessGenRun = some (witnessGenRun.getD startState) ∧
    ((witnessGenRun.getD startState).events.map fun e => (e.artistId, e.eventDate)).Nodup := by
  have h : generateEvents 0 [witnessArtist] [witnessVenue] [] 1 zeroGenOracle 2
      = some (witnessGenRun.getD startState) := rfl
  exact ⟨h, no_double_booking 0 [witnessArtist] [witnessVenue] [] 1 zeroGenOracle 2 _ h⟩

/-- C6 witness at a concrete completing run. -/
theorem generateEvents_count_witness :
    witnessGenRun = some (witnessGenRun.getD startState) ∧
    (witnessGenRun.getD startState).events.length = 1 := by
  have h : generateEvents 0 [witnessArtist] [witnessVenue] [] 1 zeroGenOracle 2
      = some (witnessGenRun.getD startState) := rfl
  exact ⟨h, generateEvents_count 0 [witnessArtist] [witnessVenue] [] 1 zeroGenOracle 2 _ h⟩

/-- The artist whose two tours trigger the generate_events stall. -/
def stallArtist : Artist := { artistId := 1, tier := Tier.megastar }

/-- First tour: one show starting (and booking) day 5. -/
def stallTourA : Tour :=
  { tourId := 1, artistId := 1, startDate := 5, endDate := 10, numShows := 1 }

/-- Second tour of the same artist, starting on the already-booked day 5. -/
def stallTourB : Tour :=
  { tourId := 2, artistId := 1, startDate := 5, endDate := 30, numShows := 2 }

/-- The state after the first tour books day 5 for artist 1. -/
def stalledState : GenState :=
  bookEvent startState 1 5
    (createEvent 0 1 1 Tier.megastar witnessVenue 5 (some 1) zeroCreateDraws)

/-- Non-termination of generate_events on the two-tour input: the claim
that generate_events(n) always terminates fails here, because the second
start date of the tour is already booked and tour_event_count is still 0, so
the loop re-checks the same date forever without advancing. -/
def generateEventsStalls : Prop :=
  ∀ fuel, generateEvents 0 [stallArtist] [witnessVenue] [stallTourA, stallTourB]
    10 zeroGenOracle fuel = none

lemma tourLoop_exit (today : ℤ) (venues : List Venue) (tierOf : ℕ → Tier) (n : ℕ)
    (tour : Tour) (o : TourOracle) (f tc : ℕ) (cur : ℤ) (st : GenState)
    (h : ¬(tc < tour.numShows ∧ cur ≤ tour.endDate ∧ st.counter ≤ n)) :
    tourLoop today venues tierOf n tour o f tc cur st = some st := by
  cases f with
  | zero =>
    unfold tourLoop
    rw [if_neg h]
  | succ f =>
    unfold tourLoop
    rw [if_neg h]

lemma tourLoop_stuck (today : ℤ) (venues : List Venue) (tierOf : ℕ → Tier) (n : ℕ)
    (tour : Tour) (o : TourOracle) (cur : ℤ) (st : GenState)
    (hguard : 0 < tour.numShows ∧ cur ≤ tour.endDate ∧ st.counter ≤ n)
    (hmem : cur ∈ st.calendar tour.artistId) :
    ∀ f, tourLoop today venues tierOf n tour o f 0 cur st = none := by
  intro f
  induction f with
  | zero =>
    unfold tourLoop
    rw [if_pos hguard]
  | succ f ih =>
    unfold tourLoop
    rw [if_pos hguard]
    dsimp only
    rw [if_neg (lt_irrefl 0), if_pos hmem]
    exact ih

lemma runTours_cons_none (today : ℤ) (venues : List Venue) (tierOf : ℕ → Tier)
    (n : ℕ) (tourO : ℕ → TourOracle) (t : Tour) (ts : List Tour) (idx fuel : ℕ)
    (st : GenState)
    (h : tourLoop today venues tierOf n t (tourO idx) fuel 0 t.startDate st = none) :
    runTours today venues tierOf n tourO (t :: ts) idx fuel st = none := by
  conv_lhs => unfold runTours
  rw [h]

lemma runTours_cons_some (today : ℤ) (venues : List Venue) (tierOf : ℕ → Tier)
    (n : ℕ) (tourO : ℕ → TourOracle) (t : Tour) (ts : List Tour) (idx fuel : ℕ)
    (st st' : GenState)
    (h : tourLoop today venues tierOf n t (tourO idx) fuel 0 t.startDate st = some st') :
    runTours today venues tierOf n tourO (t :: ts) idx fuel st =
      runTours today venues tierOf n tourO ts (idx + 1) fuel st' := by
  conv_lhs => unfold runTours
  rw [h]

/-- C6 counterexample: generate_events loops forever (returns none at
EVERY fuel bound, and provably repeats an unchanged state) when an
second tour of an artist starts on a date its first tour already booked. -/
theorem generateEvents_stalls_forever : generateEventsStalls := by
  intro fuel
  cases fuel with
  | zero => rfl
  | succ f =>
    have hA : tourLoop 0 [witnessVenue] (tierOfArtists [stallArtist]) 10 stallTourA
        (zeroGenOracle.tourO 0) (f + 1) 0 stallTourA.startDate startState
        = some stalledState := by
      unfold tourLoop
      rw [if_pos (show 0 < stallTourA.numShows ∧ stallTourA.startDate ≤ stallTourA.endDate ∧
        startState.counter ≤ 10 by decide)]
      dsimp only
      rw [if_neg (lt_irrefl 0)]
      rw [if_neg (show ¬(stallTourA.startDate ∈
        startState.calendar stallTourA.artistId) by decide)]
      refine tourLoop_exit 0 [witnessVenue] (tierOfArtists [stallArtist]) 10 stallTourA
        (zeroGenOracle.tourO 0) f 1 stallTourA.startDate _ ?_
      intro hcontra
      exact absurd hcontra.1 (by decide)
    have hB : tourLoop 0 [witnessVenue] (tierOfArtists [stallArtist]) 10 stallTourB
        (zeroGenOracle.tourO 1) (f + 1) 0 stallTourB.startDate stalledState = none :=
      tourLoop_stuck 0 [witnessVenue] (tierOfArtists [stallArtist]) 10 stallTourB
        (zeroGenOracle.tourO 1) stallTourB.startDate stalledState
        (by decide) (by decide) (f + 1)
    have hrt : runTours 0 [witnessVenue] (tierOfArtists [stallArtist]) 10 zeroGenOracle.tourO
        [stallTourA, stallTourB] 0 (f + 1) startState = none := by
      rw [runTours_cons_some 0 [witnessVenue] (tierOfArtists [stallArtist]) 10
        zeroGenOracle.tourO stallTourA [stallTourB] 0 (f + 1) startState stalledState hA]
      exact runTours_cons_none 0 [witnessVenue] (tierOfArtists [stallArtist]) 10
        zeroGenOracle.tourO stallTourB [] 1 (f + 1) stalledState hB
    unfold generateEvents
    rw [hrt]
